import Mathlib

/-!
Verification of the core learning / classification / fault-location logic of the
`poc-auto-pr-fix` repository against its specification.

The Python sources are shallowly embedded:

* `pr_outcome_monitor.py` — `LearningDatabase` (record_outcome, check_promotion,
  promote_pattern, check_demotion, demote_pattern, _load), `PRTracker` and
  `PROutcomeMonitor.monitor_open_prs`;
* `pr_merge_handler.py` — `PRMergeHandler.handle_pr_merged`;
* `build_fix_v2.py` — `classify_error_confidence` and the rule tables
  `SAFE_ERROR_PATTERNS` / `RISKY_ERROR_PATTERNS`;
* `fault_commit_analyzer.py` — `FaultyCommitAnalyzer.find_last_good_commit`
  (structurally identical to `build_fix_v2.find_last_good_commit`) and
  `FaultyCommitAnalyzer.run_git_bisect`.

Modelling conventions:

* Python `int` is embedded as `Int` (arbitrary precision, may go negative).
* Wall-clock timestamps (`last_update`, `last_updated`, `promoted_at`,
  `created`) are abstracted away; for `promoted_at` only the fact that it was
  ever set is kept (`promoted_at_set : Bool`).
* Each `LearningDatabase` method is embedded as a function returning a
  `MethodResult`: its Python return value, the in-memory store after the call,
  and the number of `self.save()` calls it performed.  `save` itself (a JSON
  dump that returns `True`) is abstracted to that counter.
-/

set_option autoImplicit false

namespace AutoPrFix

/-! ## LearningDatabase data model (pr_outcome_monitor.py, lines 209-407) -/

/-- One entry of `data["root_causes"]`, as initialised at
pr_outcome_monitor.py lines 270-279.  The `last_update` timestamp is
abstracted away; `promoted_at_set` records whether `promoted_at` was ever
assigned a timestamp (it is `None` at creation). -/
structure PatternStats where
  confidence : String
  success_count : Int
  failure_count : Int
  consecutive_successes : Int
  consecutive_failures : Int
  total_attempts : Int
  promoted_at_set : Bool
  deriving DecidableEq

/-- The `data["metadata"]` block created by `_load` (lines 226-236); the
`created` / `last_updated` timestamps are abstracted away. -/
structure DbMetadata where
  total_patterns : Int
  promoted_patterns : Int
  demoted_patterns : Int
  deriving DecidableEq

/-- The in-memory learning database `self.data`.  The Python `root_causes`
dict (string keys, insertion ordered, no duplicate keys) is embedded as an
association list. -/
structure LearningDb where
  metadata : DbMetadata
  root_causes : List (String × PatternStats)
  deriving DecidableEq

/-- The fresh pattern record of record_outcome, lines 270-279. -/
def freshPattern : PatternStats :=
  { confidence := "low", success_count := 0, failure_count := 0,
    consecutive_successes := 0, consecutive_failures := 0,
    total_attempts := 0, promoted_at_set := false }

/-- The empty store created by `_load` when no file exists (lines 224-236). -/
def emptyDb : LearningDb :=
  { metadata := { total_patterns := 0, promoted_patterns := 0, demoted_patterns := 0 },
    root_causes := [] }

/-- Dictionary lookup `self.data["root_causes"].get(root_cause)`. -/
def lookupRC : List (String × PatternStats) → String → Option PatternStats
  | [], _ => none
  | q :: l, k => if q.1 = k then some q.2 else lookupRC l k

/-- In-place mutation of the entry stored under key `k`
(`pattern = self.data["root_causes"][root_cause]; pattern[...] = ...`). -/
def updateRC (l : List (String × PatternStats)) (k : String)
    (f : PatternStats → PatternStats) : List (String × PatternStats) :=
  l.map fun q => if q.1 = k then (q.1, f q.2) else q

/-- Result of one Python method call on `LearningDatabase`: the returned
value, the in-memory `self.data` afterwards, and how many times the method
invoked `self.save()`. -/
structure MethodResult (α : Type) where
  ret : α
  db : LearningDb
  saves : Nat
  deriving DecidableEq

/-- `SUCCESS_THRESHOLD` (pr_outcome_monitor.py line 82). -/
def SUCCESS_THRESHOLD : Int := 3

/-- `FAILURE_THRESHOLD` (line 83). -/
def FAILURE_THRESHOLD : Int := 2

/-- `CONSECUTIVE_SUCCESS_THRESHOLD` (line 84). -/
def CONSECUTIVE_SUCCESS_THRESHOLD : Int := 3

/-- The counter updates of `record_outcome` on one pattern record
(lines 282-299): `total_attempts += 1`, then the success or failure branch. -/
def recordStep (success : Bool) (p : PatternStats) : PatternStats :=
  let p := { p with total_attempts := p.total_attempts + 1 }
  if success then
    { p with success_count := p.success_count + 1,
             consecutive_successes := p.consecutive_successes + 1,
             consecutive_failures := 0 }
  else
    { p with failure_count := p.failure_count + 1,
             consecutive_successes := 0,
             consecutive_failures := p.consecutive_failures + 1 }

/-- `LearningDatabase.record_outcome` (lines 256-301): lazily creates the
pattern record (bumping `metadata.total_patterns`), applies `recordStep` to
it, and saves once.  The method returns the result of `self.save()`, which
is `True` in the abstracted persistence model. -/
def record_outcome (db : LearningDb) (root_cause : String) (success : Bool) :
    MethodResult Bool :=
  let db :=
    if (lookupRC db.root_causes root_cause).isSome then db
    else
      { db with
        root_causes := db.root_causes ++ [(root_cause, freshPattern)],
        metadata := { db.metadata with total_patterns := db.metadata.total_patterns + 1 } }
  { ret := true,
    db := { db with root_causes := updateRC db.root_causes root_cause (recordStep success) },
    saves := 1 }

/-- `LearningDatabase.check_promotion` (lines 303-326).  Returns the
`(should_promote, reason)` tuple.  Note that the source performs no
"already promoted" check: the criteria are evaluated regardless of the
current `confidence` field. -/
def check_promotion (db : LearningDb) (root_cause : String) :
    MethodResult (Bool × Option String) :=
  match lookupRC db.root_causes root_cause with
  | none => { ret := (false, some "Pattern not found"), db := db, saves := 0 }
  | some pattern =>
    if CONSECUTIVE_SUCCESS_THRESHOLD ≤ pattern.consecutive_successes then
      { ret := (true, some "3 consecutive successes"), db := db, saves := 0 }
    else if SUCCESS_THRESHOLD ≤ pattern.success_count ∧
            pattern.failure_count < pattern.success_count then
      { ret := (true, some "3+ successes with more successes than failures"),
        db := db, saves := 0 }
    else
      { ret := (false, none), db := db, saves := 0 }

/-- `LearningDatabase.promote_pattern` (lines 328-352): no-op (and no save)
when the pattern is missing or already `"high"`; otherwise sets
`confidence := "high"`, stamps `promoted_at`, bumps
`metadata.promoted_patterns` and saves once. -/
def promote_pattern (db : LearningDb) (root_cause : String) : MethodResult Bool :=
  match lookupRC db.root_causes root_cause with
  | none => { ret := false, db := db, saves := 0 }
  | some pattern =>
    if pattern.confidence = "high" then { ret := true, db := db, saves := 0 }
    else
      { ret := true,
        db := { db with
                root_causes := updateRC db.root_causes root_cause
                  (fun p => { p with confidence := "high", promoted_at_set := true }),
                metadata := { db.metadata with
                              promoted_patterns := db.metadata.promoted_patterns + 1 } },
        saves := 1 }

/-- `LearningDatabase.check_demotion` (lines 354-381). -/
def check_demotion (db : LearningDb) (root_cause : String) :
    MethodResult (Bool × Option String) :=
  match lookupRC db.root_causes root_cause with
  | none => { ret := (false, some "Pattern not found"), db := db, saves := 0 }
  | some pattern =>
    if ¬ pattern.confidence = "high" then
      { ret := (false, some "Not in HIGH confidence"), db := db, saves := 0 }
    else if FAILURE_THRESHOLD ≤ pattern.consecutive_failures then
      { ret := (true, some "2+ consecutive failures"), db := db, saves := 0 }
    else if pattern.success_count < pattern.failure_count ∧
            (3 : Int) ≤ pattern.total_attempts then
      { ret := (true, some "More failures than successes"), db := db, saves := 0 }
    else
      { ret := (false, none), db := db, saves := 0 }

/-- `LearningDatabase.demote_pattern` (lines 383-407): no-op (and no save)
when the pattern is missing or already `"low"`; otherwise sets
`confidence := "low"`, resets `consecutive_successes`, bumps
`metadata.demoted_patterns` and saves once. -/
def demote_pattern (db : LearningDb) (root_cause : String) : MethodResult Bool :=
  match lookupRC db.root_causes root_cause with
  | none => { ret := false, db := db, saves := 0 }
  | some pattern =>
    if pattern.confidence = "low" then { ret := true, db := db, saves := 0 }
    else
      { ret := true,
        db := { db with
                root_causes := updateRC db.root_causes root_cause
                  (fun p => { p with confidence := "low", consecutive_successes := 0 }),
                metadata := { db.metadata with
                              demoted_patterns := db.metadata.demoted_patterns + 1 } },
        saves := 1 }

/-! ## `LearningDatabase._load` (pr_outcome_monitor.py lines 222-243)

The identical structure also appears in learning_classifier.py lines 46-67. -/

/-- State of the persisted `learning_db.json` document on disk. -/
inductive StoredFile where
  | absent
  | malformed
  | wellFormed (db : LearningDb)
  deriving DecidableEq

/-- `LearningDatabase._load`.  When no file exists it returns a fresh empty
store; when the file parses it returns the parsed store.  When the file
exists but fails to parse, the `except` handler executes
`return self._load()` (line 243, comment "Recurse to create new DB"): the
file still exists and still fails to parse, so the call recurses again.
The embedding makes the recursion depth explicit: `load depth file` is the
call with `depth` stack frames still available, and `none` means the
recursion consumed every frame without producing a value — the Python
`RecursionError` that eventually escapes `_load`. -/
def load : Nat → StoredFile → Option LearningDb
  | _ + 1, .absent => some emptyDb
  | _ + 1, .wellFormed db => some db
  | depth + 1, .malformed => load depth .malformed
  | 0, _ => none

/-! ## Association-list lemmas -/

lemma lookupRC_updateRC (l : List (String × PatternStats)) (k k2 : String)
    (f : PatternStats → PatternStats) :
    lookupRC (updateRC l k f) k2 =
      if k2 = k then (lookupRC l k2).map f else lookupRC l k2 := by
  induction l with
  | nil => by_cases h : k2 = k <;> simp [updateRC, lookupRC, h]
  | cons q l ih =>
    simp only [updateRC, List.map_cons] at ih ⊢
    by_cases hq : q.1 = k
    · by_cases hk : k2 = k
      · subst hk
        simp [lookupRC, hq]
      · have hq2 : ¬ q.1 = k2 := fun h => hk ((h ▸ hq : k2 = k))
        have hk2 : ¬ k = k2 := fun h => hk h.symm
        simp [lookupRC, hq, hq2, hk, hk2, ih]
    · by_cases hq2 : q.1 = k2
      · have hk : ¬ k2 = k := fun h => hq ((h ▸ hq2 : q.1 = k))
        simp [lookupRC, hq, hq2, hk]
      · simp [lookupRC, hq, hq2, ih]

lemma lookupRC_append_self (l : List (String × PatternStats)) (k : String)
    (v : PatternStats) (h : lookupRC l k = none) :
    lookupRC (l ++ [(k, v)]) k = some v := by
  induction l with
  | nil => simp [lookupRC]
  | cons q l ih =>
    by_cases hq : q.1 = k <;> simp_all [lookupRC]

lemma lookupRC_isSome_of_none (l : List (String × PatternStats)) (k : String)
    (h : ¬ (lookupRC l k).isSome) : lookupRC l k = none := by
  cases hl : lookupRC l k <;> simp_all

/-- After `record_outcome`, the pattern stored under `root_cause` is
`recordStep` applied to the previous record (or to `freshPattern` if the
category was absent). -/
lemma lookupRC_record_outcome (db : LearningDb) (rc : String) (b : Bool) :
    lookupRC (record_outcome db rc b).db.root_causes rc =
      some (recordStep b ((lookupRC db.root_causes rc).getD freshPattern)) := by
  unfold record_outcome
  by_cases h : (lookupRC db.root_causes rc).isSome
  · rcases hl : lookupRC db.root_causes rc with _ | p
    · rw [hl] at h; simp at h
    · simp [h, lookupRC_updateRC, hl]
  · have hnone := lookupRC_isSome_of_none _ _ h
    simp [h, lookupRC_updateRC, lookupRC_append_self _ _ _ hnone, hnone]

/-! ## Counter invariants (data-model section of the spec) -/

/-- The §3 invariants on one pattern record:
`successCount + failureCount == totalAttempts` and non-negativity. -/
def PatternOk (p : PatternStats) : Prop :=
  p.success_count + p.failure_count = p.total_attempts ∧
  0 ≤ p.success_count ∧ 0 ≤ p.failure_count ∧ 0 ≤ p.total_attempts

instance (p : PatternStats) : Decidable (PatternOk p) :=
  inferInstanceAs (Decidable (_ ∧ _ ∧ _ ∧ _))

/-- Every pattern record of a store satisfies `PatternOk`. -/
def DbOk (db : LearningDb) : Prop := ∀ q ∈ db.root_causes, PatternOk q.2

instance (db : LearningDb) : Decidable (DbOk db) := List.decidableBAll _ _

lemma patternOk_fresh : PatternOk freshPattern := by decide

lemma patternOk_recordStep (b : Bool) (p : PatternStats) (hp : PatternOk p) :
    PatternOk (recordStep b p) := by
  obtain ⟨h1, h2, h3, h4⟩ := hp
  cases b <;> refine ⟨?_, ?_, ?_, ?_⟩ <;> simp [recordStep] <;> omega

lemma dbOk_updateRC (l : List (String × PatternStats)) (k : String)
    (f : PatternStats → PatternStats) (hf : ∀ p, PatternOk p → PatternOk (f p))
    (h : ∀ q ∈ l, PatternOk q.2) : ∀ q ∈ updateRC l k f, PatternOk q.2 := by
  intro q hq
  rcases List.mem_map.1 hq with ⟨q₀, hq₀, rfl⟩
  by_cases hk : q₀.1 = k
  · simpa [hk] using hf _ (h _ hq₀)
  · simpa [hk] using h _ hq₀

lemma record_outcome_dbOk (db : LearningDb) (rc : String) (b : Bool)
    (h : DbOk db) : DbOk (record_outcome db rc b).db := by
  simp only [record_outcome]
  by_cases hp : (lookupRC db.root_causes rc).isSome
  · rw [if_pos hp]
    intro q hq
    exact dbOk_updateRC _ _ _ (patternOk_recordStep b) h q hq
  · rw [if_neg hp]
    intro q hq
    refine dbOk_updateRC _ _ _ (patternOk_recordStep b) ?_ q hq
    intro q2 hq2
    rcases List.mem_append.1 hq2 with hq2 | hq2
    · exact h _ hq2
    · simp only [List.mem_singleton] at hq2
      rw [hq2]
      exact patternOk_fresh

lemma promote_pattern_dbOk (db : LearningDb) (rc : String) (h : DbOk db) :
    DbOk (promote_pattern db rc).db := by
  unfold promote_pattern
  rcases lookupRC db.root_causes rc with _ | p
  · exact h
  · dsimp only
    by_cases hc : p.confidence = "high"
    · rw [if_pos hc]
      exact h
    · rw [if_neg hc]
      dsimp only
      intro q hq
      have hq2 : q ∈ updateRC db.root_causes rc
          (fun p => { p with confidence := "high", promoted_at_set := true }) := hq
      refine dbOk_updateRC _ _ _ ?_ h q hq2
      intro p2 hp2
      exact hp2

lemma demote_pattern_dbOk (db : LearningDb) (rc : String) (h : DbOk db) :
    DbOk (demote_pattern db rc).db := by
  unfold demote_pattern
  rcases lookupRC db.root_causes rc with _ | p
  · exact h
  · dsimp only
    by_cases hc : p.confidence = "low"
    · rw [if_pos hc]
      exact h
    · rw [if_neg hc]
      dsimp only
      intro q hq
      have hq2 : q ∈ updateRC db.root_causes rc
          (fun p => { p with confidence := "low", consecutive_successes := 0 }) := hq
      refine dbOk_updateRC _ _ _ ?_ h q hq2
      intro p2 hp2
      exact hp2

/-- The sequence of mutating `LearningDatabase` calls the feedback loop can
issue against the store. -/
inductive LearningOp where
  | record (root_cause : String) (success : Bool)
  | promote (root_cause : String)
  | demote (root_cause : String)

def applyOp (db : LearningDb) : LearningOp → LearningDb
  | .record rc b => (record_outcome db rc b).db
  | .promote rc => (promote_pattern db rc).db
  | .demote rc => (demote_pattern db rc).db

/-- A store reached from `db` by a sequence of mutating calls. -/
def applyOps (db : LearningDb) (ops : List LearningOp) : LearningDb :=
  ops.foldl applyOp db

lemma applyOps_dbOk (ops : List LearningOp) (db : LearningDb) (h : DbOk db) :
    DbOk (applyOps db ops) := by
  induction ops generalizing db with
  | nil => exact h
  | cons op ops ih =>
    refine ih _ ?_
    cases op with
    | record rc b => exact record_outcome_dbOk _ _ _ h
    | promote rc => exact promote_pattern_dbOk _ _ h
    | demote rc => exact demote_pattern_dbOk _ _ h

lemma dbOk_empty : DbOk emptyDb := by decide

/-- The `success_count` / `failure_count` / `total_attempts` triple of the
record stored under `rc` (`none` if `rc` is untracked). -/
def countersOf (db : LearningDb) (rc : String) : Option (Int × Int × Int) :=
  (lookupRC db.root_causes rc).map fun p =>
    (p.success_count, p.failure_count, p.total_attempts)

/-- `total_attempts` of the record stored under `rc`, `0` if untracked. -/
def totalAttemptsOf (db : LearningDb) (rc : String) : Int :=
  ((lookupRC db.root_causes rc).map PatternStats.total_attempts).getD 0

lemma totalAttemptsOf_record_outcome (db : LearningDb) (rc : String) (b : Bool) :
    totalAttemptsOf (record_outcome db rc b).db rc = totalAttemptsOf db rc + 1 := by
  unfold totalAttemptsOf
  rw [lookupRC_record_outcome]
  rcases hl : lookupRC db.root_causes rc with _ | p <;>
    cases b <;> simp [recordStep, freshPattern]

lemma countersOf_promote (db : LearningDb) (rc rc2 : String) :
    countersOf (promote_pattern db rc2).db rc = countersOf db rc := by
  unfold promote_pattern
  rcases hl : lookupRC db.root_causes rc2 with _ | p
  · rfl
  · dsimp only
    by_cases hc : p.confidence = "high"
    · rw [if_pos hc]
    · rw [if_neg hc]
      unfold countersOf
      rw [lookupRC_updateRC]
      by_cases hk : rc = rc2
      · subst hk
        rw [if_pos rfl, hl]
        rfl
      · rw [if_neg hk]

lemma countersOf_demote (db : LearningDb) (rc rc2 : String) :
    countersOf (demote_pattern db rc2).db rc = countersOf db rc := by
  unfold demote_pattern
  rcases hl : lookupRC db.root_causes rc2 with _ | p
  · rfl
  · dsimp only
    by_cases hc : p.confidence = "low"
    · rw [if_pos hc]
    · rw [if_neg hc]
      unfold countersOf
      rw [lookupRC_updateRC]
      by_cases hk : rc = rc2
      · subst hk
        rw [if_pos rfl, hl]
        rfl
      · rw [if_neg hk]

/-- C9: on every store reachable from the empty store by any sequence of
`record_outcome` / `promote_pattern` / `demote_pattern` calls, every tracked
pattern satisfies `success_count + failure_count = total_attempts` with all
three counters non-negative; a further `record_outcome` call for a category
strictly increases (by exactly one) that category's `total_attempts`; and
`promote_pattern` / `demote_pattern` leave the three counters of every
category unchanged. -/
theorem counters_invariant (ops : List LearningOp) (rc rc2 : String) (success : Bool) :
    DbOk (applyOps emptyDb ops) ∧
    totalAttemptsOf (record_outcome (applyOps emptyDb ops) rc success).db rc
      = totalAttemptsOf (applyOps emptyDb ops) rc + 1 ∧
    totalAttemptsOf (applyOps emptyDb ops) rc
      < totalAttemptsOf (record_outcome (applyOps emptyDb ops) rc success).db rc ∧
    countersOf (promote_pattern (applyOps emptyDb ops) rc2).db rc
      = countersOf (applyOps emptyDb ops) rc ∧
    countersOf (demote_pattern (applyOps emptyDb ops) rc2).db rc
      = countersOf (applyOps emptyDb ops) rc := by
  refine ⟨applyOps_dbOk ops emptyDb dbOk_empty, totalAttemptsOf_record_outcome _ _ _, ?_,
    countersOf_promote _ _ _, countersOf_demote _ _ _⟩
  rw [totalAttemptsOf_record_outcome]
  omega

/-- C4: `LearningDatabase._load` on a store file that exists but fails to
parse.  The spec requires recovery to an empty store that "never crashes the
caller", and the source comment ("Recurse to create new DB") shows the same
intent, but the `except` handler re-enters `_load` with the malformed file
still in place: the recursion never produces a store at any depth, so the
call only ends with an uncaught `RecursionError`. -/
theorem load_malformed_never_returns :
    ∀ depth, load depth StoredFile.malformed = none := by
  intro depth
  induction depth with
  | zero => rfl
  | succ n ih => simpa [load] using ih

/-- A store whose `risky:business_logic` pattern is already promoted
(`confidence = "high"`) with a success streak of 3. -/
def promotedStreakDb : LearningDb :=
  { metadata := { total_patterns := 1, promoted_patterns := 1, demoted_patterns := 0 },
    root_causes := [("risky:business_logic",
      { confidence := "high", success_count := 3, failure_count := 0,
        consecutive_successes := 3, consecutive_failures := 0,
        total_attempts := 3, promoted_at_set := true })] }

/-- C7 counterexample: `check_promotion` returns `True` for a category that
is already promoted (its `confidence` is `"high"`), whereas the claim
requires `false` for an already-promoted category: the source never
consults the `confidence` field. -/
theorem check_promotion_true_when_already_promoted :
    (lookupRC promotedStreakDb.root_causes "risky:business_logic").map
        PatternStats.confidence = some "high" ∧
    (check_promotion promotedStreakDb "risky:business_logic").ret.1 = true := by
  decide

/-- C7 (amended): for every store and category, `check_promotion` returns
`True` iff the category is tracked and (`consecutive_successes ≥ 3`, or
(`success_count ≥ 3` and `success_count > failure_count`)) — with no
"not already promoted" condition; for an untracked category it returns
`False`. -/
theorem check_promotion_iff_criteria (db : LearningDb) (root_cause : String) :
    (check_promotion db root_cause).ret.1 = true ↔
      ∃ p, lookupRC db.root_causes root_cause = some p ∧
        (3 ≤ p.consecutive_successes ∨
          (3 ≤ p.success_count ∧ p.failure_count < p.success_count)) := by
  unfold check_promotion
  rcases hl : lookupRC db.root_causes root_cause with _ | p
  · simp
  · dsimp only
    simp only [CONSECUTIVE_SUCCESS_THRESHOLD, SUCCESS_THRESHOLD]
    split_ifs with h1 h2
    · constructor
      · intro _
        exact ⟨p, rfl, Or.inl h1⟩
      · intro _
        rfl
    · constructor
      · intro _
        exact ⟨p, rfl, Or.inr h2⟩
      · intro _
        rfl
    · constructor
      · intro hfalse
        exact hfalse.elim
      · rintro ⟨p2, hp2, hcrit⟩
        rw [Option.some.injEq] at hp2
        subst hp2
        rcases hcrit with hc | hc
        · exact h1 hc
        · exact h2 hc

/-- C10: `check_promotion` and `check_demotion` are pure queries: for every
store and category they leave the in-memory store unchanged and perform no
`save()` call.  (The mutators `record_outcome`, `promote_pattern` and
`demote_pattern` are the only methods whose embeddings return a changed
store or a nonzero save count.) -/
theorem check_queries_are_pure (db : LearningDb) (root_cause : String) :
    (check_promotion db root_cause).db = db ∧
    (check_promotion db root_cause).saves = 0 ∧
    (check_demotion db root_cause).db = db ∧
    (check_demotion db root_cause).saves = 0 := by
  unfold check_promotion check_demotion
  rcases lookupRC db.root_causes root_cause with _ | p
  · exact ⟨rfl, rfl, rfl, rfl⟩
  · dsimp only
    refine ⟨?_, ?_, ?_, ?_⟩ <;> split_ifs <;> rfl

/-! ## Error classification (build_fix_v2.py, lines 79-92 and 195-261)

`classify_error_confidence` lowercases the message and runs `re.search`
over the rule tables.  Every regex in the tables is an alternation of
sequences of literal fragments separated by `.*`; since `.` does not match
a newline, such a sequence matches iff some single line of the text
contains the fragments in order.  The embedding works on `List Char`,
models `.lower()` with `Char.toLower` (the sources and rules are ASCII),
and implements exactly that matching discipline.  The one non-literal
regex, `symbol:\s*(method|variable)`, is modelled separately
(`symbolKindSearch`): `\s` may match a newline, so it scans the whole
text. -/

/-- Leftmost occurrence of the literal `lit` in `s`; returns the remainder
of `s` after that occurrence.  For patterns of the form
`lit1.*lit2.*...`, taking the leftmost occurrence at each step is complete:
a match exists iff the greedy scan succeeds. -/
def findRest (lit : List Char) : List Char → Option (List Char)
  | [] => if lit = [] then some [] else none
  | c :: cs =>
    if lit.isPrefixOf (c :: cs) then some (List.drop lit.length (c :: cs))
    else findRest lit cs

/-- `re.search` of `lit1.*lit2.*...*litN` within one line. -/
def seqWithin : List (List Char) → List Char → Bool
  | [], _ => true
  | lit :: lits, line =>
    match findRest lit line with
    | none => false
    | some rest => seqWithin lits rest

/-- Split a text at newline characters (the lines `.` cannot cross). -/
def splitLines : List Char → List (List Char)
  | [] => [[]]
  | c :: cs =>
    if c = '\n' then [] :: splitLines cs
    else
      match splitLines cs with
      | [] => [[c]]
      | l :: ls => (c :: l) :: ls

/-- `re.search(pattern, text)` for a pattern that is an alternation
(`alt1|alt2|...`) of literal sequences (each `lit1.*lit2.*...`). -/
def reSearch (alts : List (List String)) (text : List Char) : Bool :=
  (splitLines text).any fun line =>
    alts.any fun lits => seqWithin (lits.map String.toList) line

/-- `SAFE_ERROR_PATTERNS` (build_fix_v2.py lines 79-85), in dict insertion
order, each regex decomposed into its alternation of literal sequences.
The patterns are matched against the lowercased message, so the
uppercase-containing alternatives can never fire; they are kept verbatim. -/
def SAFE_ERROR_PATTERNS : List (String × List (List String)) :=
  [("missing_import", [["cannot find symbol"], ["import not found"], ["unresolved import"]]),
   ("formatting", [["unexpected token"], ["invalid syntax"], ["malformed"]]),
   ("syntax_error", [["class", "interface", "enum", "record expected"],
                     ["unexpected", "token"], ["mismatched"], ["unclosed"]]),
   ("test_failure", [["AssertionError"], ["Test", "failed"], ["FAILED"]]),
   ("lint_issue", [["warning"], ["unused variable"], ["dead code"]])]

/-- `RISKY_ERROR_PATTERNS` (lines 88-92). -/
def RISKY_ERROR_PATTERNS : List (String × List (List String)) :=
  [("business_logic", [["NullPointerException"], ["IndexOutOfBoundsException"],
                       ["logic error"], ["method", "not found"], ["RuntimeException"]]),
   ("security", [["SQL injection"], ["XSS"], ["vulnerability"], ["deprecated"], ["insecure"]]),
   ("migration", [["database"], ["schema"], ["ALTER TABLE"], ["migration"]])]

/-- The first rule of an ordered table whose regex matches
(the `for category, pattern in ...items()` loops at lines 239-243 and
253-257). -/
def firstRuleMatch (rules : List (String × List (List String)))
    (errorLower : List Char) : Option String :=
  (rules.find? fun rule => reSearch rule.2 errorLower).map Prod.fst

/-- Python `\s` characters. -/
def pyWhitespace (c : Char) : Bool :=
  c == ' ' || c == '\t' || c == '\n' || c == '\r' || c == '\x0B' || c == '\x0C'

/-- `re.search(r'symbol:\s*(method|variable)', errorLower)`
(build_fix_v2.py line 247; the copy at line 228 is unreachable, see
`learnedHighCheck`).  Tries every start position; after the literal
`symbol:` the greedy `\s*` consumes the whitespace run, which is exact
because `method` / `variable` begin with non-whitespace characters. -/
def symbolKindSearch : List Char → Bool
  | [] => false
  | c :: cs =>
    (("symbol:".toList.isPrefixOf (c :: cs)) &&
      (let rest := List.dropWhile pyWhitespace (List.drop 7 (c :: cs))
       "method".toList.isPrefixOf rest || "variable".toList.isPrefixOf rest))
    || symbolKindSearch cs

/-- The lowercased message (`error_lower = error_message.lower()`,
line 207). -/
def lowerChars (s : String) : List Char := s.toList.map Char.toLower

inductive PyExc where
  | attributeError
  deriving DecidableEq

/-- STEP 1 of `classify_error_confidence` (build_fix_v2.py lines 213-235):
the learned-pattern check.  The module imports `LearningDatabase` from
`pr_outcome_monitor`, and that class defines neither
`get_pattern_by_signature` (called at line 218) nor
`get_pattern_confidence` (line 230) — those methods exist only on the
unrelated `learning_classifier.LearningDatabase`.  The first call of the
`try` block therefore raises `AttributeError` for every store and every
message, the `except` at line 234 swallows it, and control always falls
through to STEP 2.  (`generate_error_signature` feeds only this dead call,
so it is not modelled further.) -/
def learnedHighCheck (_db : LearningDb) (_errorLower : List Char) :
    Except PyExc (String × Rat × String) :=
  .error .attributeError

/-- `classify_error_confidence` (build_fix_v2.py lines 195-261):
STEP 1 (always falls through, see `learnedHighCheck`), then the SAFE table
(returning `("safe:" ++ category, 0.9, "RULE_HIGH")`), then the
method/variable symbol special case (`("risky:business_logic", 0.1,
"LOW")`), then the RISKY table (`("risky:" ++ category, 0.1, "LOW")`),
else `("unknown", 0.5, "LOW")`.  Float literals are embedded as the
rationals they denote in the source text. -/
def classify_error_confidence (db : LearningDb) (error_message : String) :
    String × Rat × String :=
  let errorLower := lowerChars error_message
  match learnedHighCheck db errorLower with
  | .ok r => r
  | .error _ =>
    match firstRuleMatch SAFE_ERROR_PATTERNS errorLower with
    | some safe_category => ("safe:" ++ safe_category, 0.9, "RULE_HIGH")
    | none =>
      if symbolKindSearch errorLower then ("risky:business_logic", 0.1, "LOW")
      else
        match firstRuleMatch RISKY_ERROR_PATTERNS errorLower with
        | some risk_category => ("risky:" ++ risk_category, 0.1, "LOW")
        | none => ("unknown", 0.5, "LOW")

/-- C1: classifying a method-level symbol error never consults the learned
state.  Even on a store whose `risky:business_logic` pattern is promoted
(`confidence = "high"`, e.g. after three successful `record_outcome` calls
and `promote_pattern`), `classify_error_confidence` returns the rule-based
`("risky:business_logic", 0.1, "LOW")` instead of the claimed
`(category, 0.9, "LEARNED_HIGH")`: its learned-pattern step always dies
with a swallowed `AttributeError` because the imported `LearningDatabase`
has no `get_pattern_by_signature` / `get_pattern_confidence` method. -/
theorem classify_ignores_promoted_store :
    (lookupRC promotedStreakDb.root_causes "risky:business_logic").map
        PatternStats.confidence = some "high" ∧
    classify_error_confidence promotedStreakDb "error: ... symbol: method foo(...)" =
      ("risky:business_logic", 0.1, "LOW") := by
  constructor
  · rfl
  · rfl

/-- C2 counterexample: a realistic method-level cannot-find-symbol message
matches both the method/variable special case and the SAFE
`missing_import` rule (`cannot find symbol`); `classify_error_confidence`
checks the SAFE table first (STEP 2 precedes STEP 3) and returns
`("safe:missing_import", 0.9, "RULE_HIGH")`, not the claimed
`("risky:business_logic", 0.1, "LOW")`. -/
theorem safe_rule_masks_method_symbol_error :
    symbolKindSearch
        (lowerChars "error: cannot find symbol\n  symbol:   method foo(int)") = true ∧
    classify_error_confidence emptyDb
        "error: cannot find symbol\n  symbol:   method foo(int)" =
      ("safe:missing_import", 0.9, "RULE_HIGH") ∧
    classify_error_confidence emptyDb
        "error: cannot find symbol\n  symbol:   method foo(int)" ≠
      ("risky:business_logic", 0.1, "LOW") := by
  refine ⟨rfl, rfl, ?_⟩
  decide

/-- C2 (amended): the method/variable symbol-kind special case and the
RISKY rules are consulted only after the SAFE rules; an error text matching
the special case is classified `("risky:business_logic", 0.1, "LOW")`
provided no SAFE rule matches it.  (When a SAFE rule also matches, the SAFE
classification wins — see `safe_rule_masks_method_symbol_error`.) -/
theorem risky_special_case_when_no_safe (db : LearningDb) (error_message : String)
    (hsafe : firstRuleMatch SAFE_ERROR_PATTERNS (lowerChars error_message) = none)
    (hsym : symbolKindSearch (lowerChars error_message) = true) :
    classify_error_confidence db error_message = ("risky:business_logic", 0.1, "LOW") := by
  simp [classify_error_confidence, learnedHighCheck, hsafe, hsym]

/-- Scenario 2 of the spec instantiates the amended C2 statement: the plain
method-symbol text matches no SAFE rule, so the special case fires. -/
theorem risky_special_case_when_no_safe_witness :
    classify_error_confidence emptyDb "error: ... symbol: method foo(...)" =
      ("risky:business_logic", 0.1, "LOW") :=
  risky_special_case_when_no_safe emptyDb "error: ... symbol: method foo(...)" rfl rfl

/-! ## Working-tree model and `find_last_good_commit`
(fault_commit_analyzer.py lines 89-172; build_fix_v2.py lines 264-351 is the
same procedure with `git log -10` instead of `-20` and a `(sha, bool)` return
— both are covered because the commit listing is left abstract)

The working tree is modelled by the commit checked out (`head`), the
uncommitted changes if any (`work`, with an abstract payload), and the stash
as a stack of such payloads.  `git stash` pushes a dirty tree's changes and
is a no-op on a clean tree; `git checkout` moves `head` (the candidate
checkouts that can fail are driven by the `coOk` oracle — on failure the
source hits `continue` with the tree unchanged); `git stash pop` applies and
removes the top stash entry and is a failing no-op on an empty stash (these
calls all run with `check=False`).  A compile (`javac`) only produces
untracked artifacts, so it leaves this state unchanged; a per-candidate
exception such as a compile timeout is caught at lines 159-161 and continues
like a failed compile. -/

structure GitState where
  head : Nat
  work : Option Nat
  stash : List Nat
  deriving DecidableEq

/-- `git stash` (`check=False`). -/
def gitStash (s : GitState) : GitState :=
  match s.work with
  | some d => { s with work := none, stash := d :: s.stash }
  | none => s

/-- `git checkout <sha>` of a commit, on a clean tree. -/
def gitCheckout (h : Nat) (s : GitState) : GitState := { s with head := h }

/-- `git stash pop` (`check=False`). -/
def gitStashPop (s : GitState) : GitState :=
  match s.stash with
  | d :: rest => { s with work := some d, stash := rest }
  | [] => s

/-- The candidate loop of `find_last_good_commit` (fault_commit_analyzer.py
lines 117-161) over the commits after HEAD, with the unconditional restore
`git checkout current_sha; git stash pop` that runs on the in-loop success
exit (lines 152-154) and after the loop (lines 163-165): each iteration
stashes, checks out the candidate (skipping it on checkout failure),
compiles, and returns the first compiling candidate.  `currentSha` is the
`git rev-parse HEAD` captured before the loop. -/
def flgcLoop (compiles coOk : Nat → Bool) (currentSha : Nat) :
    List Nat → GitState → Option Nat × GitState
  | [], s => (none, gitStashPop (gitCheckout currentSha s))
  | c :: rest, s =>
    let s1 := gitStash s
    if coOk c then
      let s2 := gitCheckout c s1
      if compiles c then (some c, gitStashPop (gitCheckout currentSha s2))
      else flgcLoop compiles coOk currentSha rest s2
    else flgcLoop compiles coOk currentSha rest s1

/-- `FaultyCommitAnalyzer.find_last_good_commit`: `commits` is the
`git log --oneline` listing (newest first; index 0 is the current HEAD and
is skipped at lines 121-123).  An empty listing returns before any mutation
(the history query precedes the first stash/checkout). -/
def find_last_good_commit (compiles coOk : Nat → Bool) (commits : List Nat)
    (s : GitState) : Option Nat × GitState :=
  match commits with
  | [] => (none, s)
  | _ :: rest => flgcLoop compiles coOk s.head rest s

/-- C3 counterexample: a run that starts with a clean working tree but a
non-empty stash.  The search pushes nothing (stashing a clean tree is a
no-op), yet the unconditional `git stash pop` on exit pops the CALLER'S
pre-existing stash entry and applies it to the tree: afterwards HEAD is 100
as before, but stash entry 7 is gone and its changes sit uncommitted in the
working tree — not the pre-run snapshot. -/
theorem find_last_good_commit_pops_preexisting_stash :
    (find_last_good_commit (fun _ => false) (fun _ => true) [100, 1]
        { head := 100, work := none, stash := [7] }).2 =
      { head := 100, work := some 7, stash := [] } ∧
    (find_last_good_commit (fun _ => false) (fun _ => true) [100, 1]
        { head := 100, work := none, stash := [7] }).2 ≠
      { head := 100, work := none, stash := [7] } := by
  refine ⟨rfl, ?_⟩
  decide

/-- Once the tree is clean, the loop keeps it clean and the final state of
either exit is `git stash pop` after checking out `currentSha`. -/
lemma flgcLoop_of_clean (compiles coOk : Nat → Bool) (sha : Nat) :
    ∀ (cs : List Nat) (t : GitState), t.work = none →
      (flgcLoop compiles coOk sha cs t).2 = gitStashPop { t with head := sha } := by
  intro cs
  induction cs with
  | nil => intro t _; rfl
  | cons c rest ih =>
    intro t ht
    have hstash : gitStash t = t := by
      rcases t with ⟨h, w, st⟩
      cases w
      · rfl
      · exact absurd ht (by simp)
    simp only [flgcLoop, hstash]
    by_cases hco : coOk c = true
    · rw [if_pos hco]
      by_cases hcmp : compiles c = true
      · rw [if_pos hcmp]
        cases t
        rfl
      · rw [if_neg hcmp]
        exact ih (gitCheckout c t) ht
    · rw [if_neg hco]
      exact ih t ht

/-- A loop entered on a possibly dirty tree: the first iteration stashes,
after which `flgcLoop_of_clean` applies. -/
lemma flgcLoop_cons (compiles coOk : Nat → Bool) (sha c : Nat) (rest : List Nat)
    (t : GitState) :
    (flgcLoop compiles coOk sha (c :: rest) t).2 =
      gitStashPop { gitStash t with head := sha } := by
  have hclean : (gitStash t).work = none := by
    rcases t with ⟨h, w, st⟩
    cases w <;> rfl
  simp only [flgcLoop]
  by_cases hco : coOk c = true
  · rw [if_pos hco]
    by_cases hcmp : compiles c = true
    · rw [if_pos hcmp]
      generalize gitStash t = u
      cases u
      rfl
    · rw [if_neg hcmp]
      exact flgcLoop_of_clean compiles coOk sha rest (gitCheckout c (gitStash t)) hclean
  · rw [if_neg hco]
    exact flgcLoop_of_clean compiles coOk sha rest (gitStash t) hclean

/-- C3 (amended): when the pre-run stash is empty, `find_last_good_commit`
restores the caller's working tree exactly — HEAD, uncommitted changes and
stash — on every exit (first compiling candidate found, or none found, with
any pattern of candidate checkout failures).  The restoration contract
fails only against a pre-existing stash entry combined with a clean tree
(`find_last_good_commit_pops_preexisting_stash`), where the trailing
`git stash pop` pops the caller's entry. -/
theorem find_last_good_commit_restores (compiles coOk : Nat → Bool)
    (commits : List Nat) (s : GitState) (hstash : s.stash = []) :
    (find_last_good_commit compiles coOk commits s).2 = s := by
  rcases s with ⟨h, w, st⟩
  simp only at hstash
  subst hstash
  cases commits with
  | nil => rfl
  | cons c0 rest =>
    cases rest with
    | nil => cases w <;> rfl
    | cons c cs =>
      show (flgcLoop compiles coOk h (c :: cs) ⟨h, w, []⟩).2 = ⟨h, w, []⟩
      rw [flgcLoop_cons]
      cases w <;> rfl

/-- Scenario: a dirty tree with an empty stash, both candidates failing to
compile — the INCONCLUSIVE exit hands back the exact pre-run state. -/
theorem find_last_good_commit_restores_witness :
    (find_last_good_commit (fun _ => false) (fun _ => true) [100, 2, 1]
        { head := 100, work := some 5, stash := [] }).2 =
      { head := 100, work := some 5, stash := [] } :=
  find_last_good_commit_restores (fun _ => false) (fun _ => true) [100, 2, 1]
    { head := 100, work := some 5, stash := [] } rfl

/-! ## `run_git_bisect` (fault_commit_analyzer.py lines 174-259)

The driver delegates the search to `git bisect`.  For a linear chain of
commits, indexed by position, a bisect session holds a known-good lower
bound `lo`, a known-bad upper bound `hi`, and the currently checked-out
candidate `cur` strictly between them; `git bisect good`/`bad` shrinks the
range to `(cur, hi)` / `(lo, cur)` and checks out a candidate that halves
the remaining range (modelled as the floor midpoint, which maximises git's
bisection weight), or — once the range has collapsed (`hi = lo + 1`) —
announces `# first bad commit:` in `git bisect log` WITHOUT moving HEAD off
the last tested commit (verified against git 2.x).  The driver loop
(lines 195-250) compiles at HEAD, marks good/bad, and returns
`git rev-parse HEAD` as soon as the log contains `first bad commit` or
`attempt >= MAX_BISECT_ATTEMPTS - 1`; in the capped return HEAD has already
moved to the next midpoint.  The fuel is the remaining iterations of
`while attempt < MAX_BISECT_ATTEMPTS` (`none` = the dead fall-through
`return None` after the loop). -/

def MAX_BISECT_ATTEMPTS : Nat := 50

def bisectLoop (compiles : Nat → Bool) :
    Nat → Nat → Nat → Nat → Nat → Option Nat × Nat
  | 0, _, _, _, attempt => (none, attempt)
  | fuel + 1, lo, hi, cur, attempt =>
    if compiles cur then
      if hi = cur + 1 then (some cur, attempt + 1)
      else if MAX_BISECT_ATTEMPTS - 1 ≤ attempt + 1 then
        (some ((cur + hi) / 2), attempt + 1)
      else bisectLoop compiles fuel cur hi ((cur + hi) / 2) (attempt + 1)
    else
      if cur = lo + 1 then (some cur, attempt + 1)
      else if MAX_BISECT_ATTEMPTS - 1 ≤ attempt + 1 then
        (some ((lo + cur) / 2), attempt + 1)
      else bisectLoop compiles fuel lo cur ((lo + cur) / 2) (attempt + 1)

/-- `run_git_bisect good bad` returns the commit the driver reports
(`git rev-parse HEAD` at the first announced/capped iteration) together
with the number of oracle (compile) calls made.  When `bad` is the direct
successor of `good`, the session announces the first bad commit already at
`git bisect good`, HEAD stays at `bad` (where `analyze` left it), and the
loop returns it after a single compile. -/
def run_git_bisect (compiles : Nat → Bool) (good bad : Nat) : Option Nat × Nat :=
  if bad ≤ good + 1 then (some bad, 1)
  else bisectLoop compiles MAX_BISECT_ATTEMPTS good bad ((good + bad) / 2) 0

/-- C8 counterexample: chain of length 3 with the single
compiling-to-non-compiling transition at index k = 2, good bound 0, bad
bound 2.  The only candidate is commit 1; it compiles, the range collapses,
git announces commit 2 as the first bad commit but leaves HEAD at commit 1,
and the driver returns `rev-parse HEAD` = commit 1 — not the commit at the
transition index. -/
theorem run_git_bisect_misses_first_bad :
    (run_git_bisect (fun i => decide (i < 2)) 0 2).1 = some 1 ∧
    (run_git_bisect (fun i => decide (i < 2)) 0 2).1 ≠ some 2 := by
  refine ⟨rfl, ?_⟩
  decide

lemma bisectLoop_spec (compiles : Nat → Bool) (k : Nat)
    (hk : ∀ i, compiles i = true ↔ i < k) :
    ∀ fuel lo hi cur attempt,
      lo < cur → cur < hi → lo < k → k ≤ hi → cur = (lo + hi) / 2 →
      attempt + Nat.clog 2 (hi - lo) ≤ 49 →
      Nat.clog 2 (hi - lo) ≤ fuel →
      ((bisectLoop compiles fuel lo hi cur attempt).1 = some k ∨
       (bisectLoop compiles fuel lo hi cur attempt).1 = some (k - 1)) ∧
      (bisectLoop compiles fuel lo hi cur attempt).2 ≤ attempt + Nat.clog 2 (hi - lo) := by
  intro fuel
  induction fuel with
  | zero =>
    intro lo hi cur attempt h1 h2 _ _ _ _ hfuel
    exfalso
    have hr : 2 ≤ hi - lo := by omega
    have := @Nat.clog_pos 2 (hi - lo) (by norm_num) hr
    omega
  | succ fuel ih =>
    intro lo hi cur attempt h1 h2 h3 h4 hcur hcap hfuel
    have hr2 : 2 ≤ hi - lo := by omega
    have hpos := @Nat.clog_pos 2 (hi - lo) (by norm_num) hr2
    have hrec : Nat.clog 2 (hi - lo) = Nat.clog 2 ((hi - lo + 1) / 2) + 1 := by
      have := @Nat.clog_of_two_le 2 (hi - lo) (by norm_num) hr2
      simpa using this
    simp only [bisectLoop]
    by_cases hc : compiles cur = true
    · rw [if_pos hc]
      have hcurk : cur < k := (hk cur).1 hc
      by_cases hend : hi = cur + 1
      · rw [if_pos hend]
        have hkcur : k = cur + 1 := by omega
        refine ⟨Or.inr (by simp [hkcur]), ?_⟩
        show attempt + 1 ≤ attempt + Nat.clog 2 (hi - lo)
        omega
      · rw [if_neg hend]
        have hsz : hi - cur ≤ (hi - lo + 1) / 2 := by omega
        have hclog : Nat.clog 2 (hi - cur) ≤ Nat.clog 2 ((hi - lo + 1) / 2) :=
          Nat.clog_mono_right 2 hsz
        have h2le : 2 ≤ hi - cur := by omega
        have hpos2 := @Nat.clog_pos 2 (hi - cur) (by norm_num) h2le
        have hnotcap : ¬ (MAX_BISECT_ATTEMPTS - 1 ≤ attempt + 1) := by
          simp only [MAX_BISECT_ATTEMPTS]
          omega
        rw [if_neg hnotcap]
        have hres := ih cur hi ((cur + hi) / 2) (attempt + 1)
          (by omega) (by omega) hcurk h4 rfl (by omega) (by omega)
        exact ⟨hres.1, le_trans hres.2 (by omega)⟩
    · rw [if_neg hc]
      have hcurk : k ≤ cur := by
        by_contra hlt
        exact hc ((hk cur).2 (by omega))
      by_cases hend : cur = lo + 1
      · rw [if_pos hend]
        have hkcur : k = cur := by omega
        refine ⟨Or.inl (by rw [hkcur]), ?_⟩
        show attempt + 1 ≤ attempt + Nat.clog 2 (hi - lo)
        omega
      · rw [if_neg hend]
        have hsz : cur - lo ≤ (hi - lo + 1) / 2 := by omega
        have hclog : Nat.clog 2 (cur - lo) ≤ Nat.clog 2 ((hi - lo + 1) / 2) :=
          Nat.clog_mono_right 2 hsz
        have h2le : 2 ≤ cur - lo := by omega
        have hpos2 := @Nat.clog_pos 2 (cur - lo) (by norm_num) h2le
        have hnotcap : ¬ (MAX_BISECT_ATTEMPTS - 1 ≤ attempt + 1) := by
          simp only [MAX_BISECT_ATTEMPTS]
          omega
        rw [if_neg hnotcap]
        have hres := ih lo cur ((lo + cur) / 2) (attempt + 1)
          (by omega) (by omega) h3 hcurk rfl (by omega) (by omega)
        exact ⟨hres.1, le_trans hres.2 (by omega)⟩

/-- C8 (amended): on a chain whose compile oracle has its single transition
at index k, bisection between a good lower bound and a bad upper bound
returns the last probed commit, which is the commit at index k or its
immediate predecessor k - 1 (it is k exactly when the final probe failed to
compile); it performs at most `⌈log₂ (bad - good)⌉ + 1` oracle calls, and
for any chain up to 2^48 commits stays strictly inside the
`MAX_BISECT_ATTEMPTS = 50` step cap. -/
theorem run_git_bisect_near_transition (compiles : Nat → Bool) (good bad k : Nat)
    (hk : ∀ i, compiles i = true ↔ i < k) (hgood : good < k) (hbad : k ≤ bad)
    (hsize : bad - good ≤ 2 ^ 48) :
    ((run_git_bisect compiles good bad).1 = some k ∨
     (run_git_bisect compiles good bad).1 = some (k - 1)) ∧
    (run_git_bisect compiles good bad).2 ≤ Nat.clog 2 (bad - good) + 1 ∧
    (run_git_bisect compiles good bad).2 ≤ 49 := by
  unfold run_git_bisect
  by_cases hadj : bad ≤ good + 1
  · rw [if_pos hadj]
    have hkbad : k = bad := by omega
    refine ⟨Or.inl (by rw [hkbad]), ?_, ?_⟩
    · show 1 ≤ Nat.clog 2 (bad - good) + 1
      omega
    · show 1 ≤ 49
      omega
  · rw [if_neg hadj]
    have hclog48 : Nat.clog 2 (bad - good) ≤ 48 := by
      calc Nat.clog 2 (bad - good) ≤ Nat.clog 2 (2 ^ 48) := Nat.clog_mono_right 2 hsize
        _ = 48 := Nat.clog_pow 2 48 (by norm_num)
    have h := bisectLoop_spec compiles k hk MAX_BISECT_ATTEMPTS good bad
      ((good + bad) / 2) 0 (by omega) (by omega) hgood hbad rfl (by omega)
      (by simp only [MAX_BISECT_ATTEMPTS]; omega)
    exact ⟨h.1, by omega, by omega⟩

/-- Spec scenario 4, widened to a 6-commit chain: transition at index 3,
good bound 0, bad bound 5; the result is commit 3 or commit 2 within the
oracle-call budget. -/
theorem run_git_bisect_near_transition_witness :
    ((run_git_bisect (fun i => decide (i < 3)) 0 5).1 = some 3 ∨
     (run_git_bisect (fun i => decide (i < 3)) 0 5).1 = some 2) ∧
    (run_git_bisect (fun i => decide (i < 3)) 0 5).2 ≤ Nat.clog 2 5 + 1 ∧
    (run_git_bisect (fun i => decide (i < 3)) 0 5).2 ≤ 49 :=
  run_git_bisect_near_transition (fun i => decide (i < 3)) 0 5 3
    (fun i => by simp) (by omega) (by omega) (by norm_num)

/-! ## PR tracker and feedback loop
(pr_outcome_monitor.py `PRTracker` / `PROutcomeMonitor.monitor_open_prs`;
pr_merge_handler.py `PRMergeHandler.handle_pr_merged`) -/

/-- One entry of `pr_tracking.json`'s `prs` list (pr_outcome_monitor.py
lines 153-164); the timestamp fields and branch names are abstracted away. -/
structure TrackedPr where
  pr_number : Nat
  root_cause : String
  status : String
  outcome : Option String
  deriving DecidableEq

/-- `PRTracker.get_pr` (lines 201-206): first entry with the number. -/
def findPr : List TrackedPr → Nat → Option TrackedPr
  | [], _ => none
  | e :: l, n => if e.pr_number = n then some e else findPr l n

/-- `PRTracker.update_pr_status` (lines 169-195): updates the FIRST entry
with the number (the loop returns inside its body) and leaves the rest
untouched; a missing number changes nothing. -/
def updateFirstPr : List TrackedPr → Nat → String → String → List TrackedPr
  | [], _, _, _ => []
  | e :: l, n, st, oc =>
    if e.pr_number = n then { e with status := st, outcome := some oc } :: l
    else e :: updateFirstPr l n st oc

/-- `PRTracker.add_pr` (lines 136-167): appends a fresh `"open"` entry. -/
def add_pr (l : List TrackedPr) (n : Nat) (rc : String) : List TrackedPr :=
  l ++ [{ pr_number := n, root_cause := rc, status := "open", outcome := none }]

/-- The tracker file plus the learning store — the state the feedback loop
reads and writes. -/
structure SysState where
  tracker : List TrackedPr
  db : LearningDb
  deriving DecidableEq

/-- `PRMergeHandler.handle_pr_merged` (pr_merge_handler.py lines 136-215),
with the metadata extraction abstracted to its result: `root_causes` is the
list recovered from the PR body's `LEARNING_METADATA` comment, and the two
early `return False` guards (no metadata / empty list) collapse to the
empty-list case.  For each root cause the handler calls
`record_outcome(root_cause, success=True)` and then binds
`promoted = self.learning_db.check_promotion(root_cause)` — the
`(bool, reason)` TUPLE, which is always truthy — but the `if promoted:`
branch only logs; `promote_pattern` is never invoked (lines 167-173).
Afterwards it updates the tracker: `update_pr_status(... 'merged',
'success')` if the number is tracked, else one `add_pr` per root cause
followed by the same `update_pr_status` (lines 179-208). -/
def handle_pr_merged (s : SysState) (pr_number : Nat) (root_causes : List String) :
    Bool × SysState :=
  if root_causes = [] then (false, s)
  else
    let db := root_causes.foldl (fun db rc =>
      let res := record_outcome db rc true
      let _promoted := (check_promotion res.db rc).ret
      res.db) s.db
    let tracker :=
      if (findPr s.tracker pr_number).isSome then
        updateFirstPr s.tracker pr_number "merged" "success"
      else
        updateFirstPr (root_causes.foldl (fun l rc => add_pr l pr_number rc) s.tracker)
          pr_number "merged" "success"
    (true, { tracker := tracker, db := db })

/-- C6: the webhook path of the feedback loop never promotes.  Starting
from a store where `risky:business_logic` has a success streak of 2, a
merged terminal event records the third consecutive success —
`check_promotion` then returns `True` — yet the category's stored
confidence remains `"low"`: `handle_pr_merged` binds the check's result
tuple (`if promoted:` is always truthy on a tuple) and only logs
"PROMOTED", never calling `promote_pattern`. -/
theorem handle_pr_merged_never_promotes :
    (check_promotion
        (handle_pr_merged
          { tracker := [],
            db := { metadata := { total_patterns := 1, promoted_patterns := 0,
                                  demoted_patterns := 0 },
                    root_causes := [("risky:business_logic",
                      { confidence := "low", success_count := 2, failure_count := 0,
                        consecutive_successes := 2, consecutive_failures := 0,
                        total_attempts := 2, promoted_at_set := false })] } }
          7 ["risky:business_logic"]).2.db "risky:business_logic").ret.1 = true ∧
    (lookupRC
        (handle_pr_merged
          { tracker := [],
            db := { metadata := { total_patterns := 1, promoted_patterns := 0,
                                  demoted_patterns := 0 },
                    root_causes := [("risky:business_logic",
                      { confidence := "low", success_count := 2, failure_count := 0,
                        consecutive_successes := 2, consecutive_failures := 0,
                        total_attempts := 2, promoted_at_set := false })] } }
          7 ["risky:business_logic"]).2.db.root_causes "risky:business_logic").map
      PatternStats.confidence = some "low" := by
  refine ⟨rfl, rfl⟩

/-- C5 counterexample: delivering the same merged terminal event twice.
After the first `handle_pr_merged` the attribution record of PR 42 is
terminal (`status = "merged"`), yet the second delivery runs
`record_outcome` again — the handler never consults the record's state —
so `total_attempts` double-counts from 1 to 2. -/
theorem handle_pr_merged_double_counts :
    (findPr (handle_pr_merged { tracker := [], db := emptyDb }
        42 ["risky:business_logic"]).2.tracker 42).map TrackedPr.status =
      some "merged" ∧
    totalAttemptsOf (handle_pr_merged { tracker := [], db := emptyDb }
        42 ["risky:business_logic"]).2.db "risky:business_logic" = 1 ∧
    totalAttemptsOf (handle_pr_merged
        (handle_pr_merged { tracker := [], db := emptyDb }
          42 ["risky:business_logic"]).2
        42 ["risky:business_logic"]).2.db "risky:business_logic" = 2 := by
  refine ⟨rfl, rfl, rfl⟩

/-- The GitHub-side view of one PR, as read by
`PROutcomeMonitor.fetch_pr_from_github`: the `state` field (`"open"` or
`"closed"`) and whether `merged_at` is set. -/
structure GhPr where
  state : String
  merged : Bool
  deriving DecidableEq

/-- `PROutcomeMonitor.check_pr_status` (pr_outcome_monitor.py lines
494-542): `None` when the PR is untracked or the GitHub fetch fails;
otherwise `('merged', some true)` when the state is `'merged'` or
`merged_at` is set (both `is_modified` branches of lines 527-532 set
`success = True`), `('closed', some false)` for closed-unmerged, and
`('open', none)` otherwise. -/
def check_pr_status (tracker : List TrackedPr) (gh : Nat → Option GhPr) (n : Nat) :
    Option (String × Option Bool) :=
  match findPr tracker n with
  | none => none
  | some _ =>
    match gh n with
    | none => none
    | some g =>
      if g.state = "merged" ∨ g.merged = true then some ("merged", some true)
      else if g.state = "closed" then some ("closed", some false)
      else some ("open", none)

/-- The body of the `for pr in open_prs` loop of `monitor_open_prs`
(lines 555-588): skip when `check_pr_status` gives no definitive outcome;
otherwise update the tracker entry to the terminal status, record the
outcome, and run the promotion and demotion checks — this path DOES call
`promote_pattern` / `demote_pattern` (lines 577-585). -/
def monitorStep (gh : Nat → Option GhPr) (s : SysState) (pr : TrackedPr) : SysState :=
  match check_pr_status s.tracker gh pr.pr_number with
  | none => s
  | some (_, none) => s
  | some (status, some success) =>
    let tracker := updateFirstPr s.tracker pr.pr_number status
      (if success then "success" else "failure")
    let db1 := (record_outcome s.db pr.root_cause success).db
    let db2 := if (check_promotion db1 pr.root_cause).ret.1 then
        (promote_pattern db1 pr.root_cause).db else db1
    let db3 := if (check_demotion db2 pr.root_cause).ret.1 then
        (demote_pattern db2 pr.root_cause).db else db2
    { tracker := tracker, db := db3 }

/-- `PRTracker.get_open_prs` (lines 197-199). -/
def get_open_prs (l : List TrackedPr) : List TrackedPr :=
  l.filter fun e => e.status = "open"

/-- `PROutcomeMonitor.monitor_open_prs` (lines 544-592): snapshot the open
entries, then run `monitorStep` on each. -/
def monitor_open_prs (s : SysState) (gh : Nat → Option GhPr) : SysState :=
  (get_open_prs s.tracker).foldl (monitorStep gh) s

/-! ### Idempotence of the polling monitor -/

/-- A PR number for which GitHub reports a terminal outcome (merged, or
closed without merge). -/
def definitiveOutcome (gh : Nat → Option GhPr) (n : Nat) : Prop :=
  ∃ g, gh n = some g ∧
    (g.state = "merged" ∨ g.merged = true ∨ g.state = "closed")

lemma check_pr_status_terminal (tracker : List TrackedPr) (gh : Nat → Option GhPr)
    (n : Nat) (st : String) (b : Bool)
    (h : check_pr_status tracker gh n = some (st, some b)) :
    st = "merged" ∨ st = "closed" := by
  unfold check_pr_status at h
  rcases hfind : findPr tracker n with _ | e <;> rw [hfind] at h
  · exact Option.noConfusion h
  · rcases hg : gh n with _ | g <;> rw [hg] at h
    · exact Option.noConfusion h
    · dsimp only at h
      by_cases h1 : g.state = "merged" ∨ g.merged = true
      · rw [if_pos h1] at h
        simp only [Option.some.injEq, Prod.mk.injEq] at h
        exact Or.inl h.1.symm
      · rw [if_neg h1] at h
        by_cases h2 : g.state = "closed"
        · rw [if_pos h2] at h
          simp only [Option.some.injEq, Prod.mk.injEq] at h
          exact Or.inr h.1.symm
        · rw [if_neg h2] at h
          simp only [Option.some.injEq, Prod.mk.injEq] at h
          exact Option.noConfusion h.2

lemma definitive_of_check_some (tracker : List TrackedPr) (gh : Nat → Option GhPr)
    (n : Nat) (st : String) (b : Bool)
    (h : check_pr_status tracker gh n = some (st, some b)) :
    definitiveOutcome gh n := by
  unfold check_pr_status at h
  rcases hfind : findPr tracker n with _ | e <;> rw [hfind] at h
  · exact Option.noConfusion h
  · rcases hg : gh n with _ | g <;> rw [hg] at h
    · exact Option.noConfusion h
    · dsimp only at h
      refine ⟨g, hg, ?_⟩
      by_cases h1 : g.state = "merged" ∨ g.merged = true
      · tauto
      · rw [if_neg h1] at h
        by_cases h2 : g.state = "closed"
        · tauto
        · rw [if_neg h2] at h
          simp only [Option.some.injEq, Prod.mk.injEq] at h
          exact Option.noConfusion h.2

lemma check_pr_status_definitive (tracker : List TrackedPr) (gh : Nat → Option GhPr)
    (n : Nat) (hf : (findPr tracker n).isSome = true) (h : definitiveOutcome gh n) :
    ∃ st b, check_pr_status tracker gh n = some (st, some b) := by
  obtain ⟨g, hg, hor⟩ := h
  rcases hfind : findPr tracker n with _ | e
  · rw [hfind] at hf
    exact absurd hf (by simp)
  · by_cases h1 : g.state = "merged" ∨ g.merged = true
    · refine ⟨"merged", true, ?_⟩
      unfold check_pr_status
      rw [hfind, hg]
      dsimp only
      rw [if_pos h1]
    · have h2 : g.state = "closed" := by tauto
      refine ⟨"closed", false, ?_⟩
      unfold check_pr_status
      rw [hfind, hg]
      dsimp only
      rw [if_neg h1, if_pos h2]

lemma monitorStep_noop (gh : Nat → Option GhPr) (s : SysState) (pr : TrackedPr)
    (h : ¬ definitiveOutcome gh pr.pr_number) : monitorStep gh s pr = s := by
  unfold monitorStep
  rcases hcs : check_pr_status s.tracker gh pr.pr_number with _ | ⟨st, ob⟩
  · rfl
  · rcases ob with _ | b
    · rfl
    · exact absurd (definitive_of_check_some _ _ _ _ _ hcs) h

lemma foldl_monitorStep_noop (gh : Nat → Option GhPr) (L : List TrackedPr) :
    ∀ s : SysState, (∀ x ∈ L, ¬ definitiveOutcome gh x.pr_number) →
      L.foldl (monitorStep gh) s = s := by
  induction L with
  | nil => intro s _; rfl
  | cons x L ih =>
    intro s h
    rw [List.foldl_cons, monitorStep_noop gh s x (h x (List.mem_cons_self x L))]
    exact ih s fun y hy => h y (List.mem_cons_of_mem x hy)

lemma updateFirstPr_map_pr (l : List TrackedPr) (n : Nat) (st oc : String) :
    (updateFirstPr l n st oc).map TrackedPr.pr_number = l.map TrackedPr.pr_number := by
  induction l with
  | nil => rfl
  | cons e l ih =>
    by_cases he : e.pr_number = n <;> simp [updateFirstPr, he, ih]

lemma updateFirstPr_self_status (n : Nat) (st oc : String) :
    ∀ l : List TrackedPr, (l.map TrackedPr.pr_number).Nodup →
      ∀ e ∈ updateFirstPr l n st oc, e.pr_number = n → e.status = st := by
  intro l
  induction l with
  | nil =>
    intro _ e he _
    exact absurd he (List.not_mem_nil e)
  | cons a l ih =>
    intro hnd e he hn
    rw [List.map_cons, List.nodup_cons] at hnd
    by_cases ha : a.pr_number = n
    · rw [updateFirstPr, if_pos ha] at he
      rcases List.mem_cons.1 he with rfl | he2
      · rfl
      · exact absurd (by rw [ha]; exact List.mem_map.2 ⟨e, he2, hn⟩) hnd.1
    · rw [updateFirstPr, if_neg ha] at he
      rcases List.mem_cons.1 he with rfl | he2
      · exact absurd hn ha
      · exact ih hnd.2 e he2 hn

lemma mem_updateFirstPr_of_ne (n : Nat) (st oc : String) :
    ∀ l : List TrackedPr, ∀ e ∈ updateFirstPr l n st oc, ¬ e.pr_number = n → e ∈ l := by
  intro l
  induction l with
  | nil =>
    intro e he _
    exact absurd he (List.not_mem_nil e)
  | cons a l ih =>
    intro e he hne
    by_cases ha : a.pr_number = n
    · rw [updateFirstPr, if_pos ha] at he
      rcases List.mem_cons.1 he with rfl | he2
      · exact absurd ha hne
      · exact List.mem_cons_of_mem a he2
    · rw [updateFirstPr, if_neg ha] at he
      rcases List.mem_cons.1 he with rfl | he2
      · exact List.mem_cons_self e l
      · exact List.mem_cons_of_mem a (ih e he2 hne)

lemma findPr_isSome_of_mem (e : TrackedPr) :
    ∀ l : List TrackedPr, e ∈ l → (findPr l e.pr_number).isSome = true := by
  intro l
  induction l with
  | nil =>
    intro he
    exact absurd he (List.not_mem_nil e)
  | cons a l ih =>
    intro he
    by_cases ha : a.pr_number = e.pr_number
    · simp [findPr, ha]
    · rcases List.mem_cons.1 he with rfl | he2
      · exact absurd rfl ha
      · simp [findPr, ha, ih he2]

lemma monitorStep_tracker_map (gh : Nat → Option GhPr) (s : SysState) (x : TrackedPr) :
    (monitorStep gh s x).tracker.map TrackedPr.pr_number =
      s.tracker.map TrackedPr.pr_number := by
  unfold monitorStep
  rcases hcs : check_pr_status s.tracker gh x.pr_number with _ | ⟨st, ob⟩
  · rfl
  · rcases ob with _ | b
    · rfl
    · exact updateFirstPr_map_pr _ _ _ _

lemma monitorStep_tracker_processed (gh : Nat → Option GhPr) (s : SysState)
    (pr : TrackedPr) (st : String) (b : Bool)
    (h : check_pr_status s.tracker gh pr.pr_number = some (st, some b)) :
    (monitorStep gh s pr).tracker =
      updateFirstPr s.tracker pr.pr_number st (if b then "success" else "failure") := by
  unfold monitorStep
  rw [h]

/-- After one pass of `monitor_open_prs`'s loop over a snapshot `L` covering
every open entry with a definitive GitHub outcome, no entry that is still
`"open"` has a definitive outcome left to process. -/
lemma monitor_fold_closes (gh : Nat → Option GhPr) :
    ∀ (L : List TrackedPr) (s : SysState),
      (s.tracker.map TrackedPr.pr_number).Nodup →
      (∀ e ∈ s.tracker, e.status = "open" → definitiveOutcome gh e.pr_number →
        ∃ x ∈ L, x.pr_number = e.pr_number) →
      ∀ e ∈ (L.foldl (monitorStep gh) s).tracker, e.status = "open" →
        ¬ definitiveOutcome gh e.pr_number := by
  intro L
  induction L with
  | nil =>
    intro s _ hcov e he hopen hdef
    obtain ⟨x, hx, _⟩ := hcov e he hopen hdef
    exact absurd hx (List.not_mem_nil x)
  | cons x L ih =>
    intro s hnd hcov
    rw [List.foldl_cons]
    refine ih (monitorStep gh s x)
      (by rw [monitorStep_tracker_map gh s x]; exact hnd) ?_
    intro e he hopen hdef
    rcases hcs : check_pr_status s.tracker gh x.pr_number with _ | ⟨st, ob⟩
    · have hstep : monitorStep gh s x = s := by
        unfold monitorStep
        rw [hcs]
      rw [hstep] at he
      obtain ⟨y, hy, hypr⟩ := hcov e he hopen hdef
      rcases List.mem_cons.1 hy with rfl | hyL
      · exfalso
        obtain ⟨st2, b2, hsome⟩ := check_pr_status_definitive s.tracker gh y.pr_number
          (by rw [hypr]; exact findPr_isSome_of_mem e s.tracker he)
          (by rw [hypr]; exact hdef)
        rw [hcs] at hsome
        exact Option.noConfusion hsome
      · exact ⟨y, hyL, hypr⟩
    · rcases ob with _ | b
      · have hstep : monitorStep gh s x = s := by
          unfold monitorStep
          rw [hcs]
        rw [hstep] at he
        obtain ⟨y, hy, hypr⟩ := hcov e he hopen hdef
        rcases List.mem_cons.1 hy with rfl | hyL
        · exfalso
          obtain ⟨st2, b2, hsome⟩ := check_pr_status_definitive s.tracker gh y.pr_number
            (by rw [hypr]; exact findPr_isSome_of_mem e s.tracker he)
            (by rw [hypr]; exact hdef)
          rw [hcs] at hsome
          simp only [Option.some.injEq, Prod.mk.injEq] at hsome
          exact Option.noConfusion hsome.2
        · exact ⟨y, hyL, hypr⟩
      · have hterm := check_pr_status_terminal s.tracker gh x.pr_number st b hcs
        rw [monitorStep_tracker_processed gh s x st b hcs] at he
        by_cases hpr : e.pr_number = x.pr_number
        · exfalso
          have hst := updateFirstPr_self_status x.pr_number st _ s.tracker hnd e he hpr
          rw [hst] at hopen
          rcases hterm with rfl | rfl
          · exact absurd hopen (by decide)
          · exact absurd hopen (by decide)
        · have heS : e ∈ s.tracker := mem_updateFirstPr_of_ne x.pr_number st _ s.tracker e he hpr
          obtain ⟨y, hy, hypr⟩ := hcov e heS hopen hdef
          rcases List.mem_cons.1 hy with rfl | hyL
          · exact absurd hypr.symm hpr
          · exact ⟨y, hyL, hypr⟩

/-- C5 (amended): for the polling path of the feedback loop —
`monitor_open_prs`, whose tracker has no duplicate PR numbers — terminal
events are processed idempotently: a second monitoring pass over the same
GitHub state changes nothing (tracker and every LearningStore counter
included), because an entry is only processed while its attribution record
is still `"open"` and processing marks it terminal.  The webhook path
`handle_pr_merged` has no such guard and double-counts
(`handle_pr_merged_double_counts`). -/
theorem monitor_open_prs_idempotent (s : SysState) (gh : Nat → Option GhPr)
    (hnd : (s.tracker.map TrackedPr.pr_number).Nodup) :
    monitor_open_prs (monitor_open_prs s gh) gh = monitor_open_prs s gh := by
  have hcov : ∀ e ∈ s.tracker, e.status = "open" →
      definitiveOutcome gh e.pr_number →
      ∃ x ∈ get_open_prs s.tracker, x.pr_number = e.pr_number := by
    intro e he hopen _
    refine ⟨e, ?_, rfl⟩
    exact List.mem_filter.2 ⟨he, by simp [hopen]⟩
  have hclosed := monitor_fold_closes gh (get_open_prs s.tracker) s hnd hcov
  show (get_open_prs (monitor_open_prs s gh).tracker).foldl (monitorStep gh)
      (monitor_open_prs s gh) = monitor_open_prs s gh
  apply foldl_monitorStep_noop
  intro x hx
  have hx2 := List.mem_filter.1 hx
  exact hclosed x hx2.1 (by simpa using hx2.2)

/-- A tracked auto-fix PR that GitHub reports merged: one monitoring pass
records it; the second pass is the identity. -/
theorem monitor_open_prs_idempotent_witness :
    monitor_open_prs
        (monitor_open_prs
          { tracker := [{ pr_number := 42, root_cause := "risky:business_logic",
                          status := "open", outcome := none }],
            db := emptyDb }
          (fun n => if n = 42 then some { state := "closed", merged := true } else none))
        (fun n => if n = 42 then some { state := "closed", merged := true } else none) =
      monitor_open_prs
        { tracker := [{ pr_number := 42, root_cause := "risky:business_logic",
                        status := "open", outcome := none }],
          db := emptyDb }
        (fun n => if n = 42 then some { state := "closed", merged := true } else none) :=
  monitor_open_prs_idempotent
    { tracker := [{ pr_number := 42, root_cause := "risky:business_logic",
                    status := "open", outcome := none }],
      db := emptyDb }
    (fun n => if n = 42 then some { state := "closed", merged := true } else none)
    (by decide)

end AutoPrFix
